import Mathlib

/-!
Shallow embedding of the strategy-evaluation core of the Coin-Pilot repository:
the technical-indicator library (src/analysis/technicalIndicators.js), the
trading-strategy decision engine (src/strategy/tradingStrategy.js), the
backtest simulator (src/backtest/backtestEngine.js) and the genetic parameter
optimizer (src/optimization/parameterOptimizer.js).

Modelling conventions:
* JavaScript numbers are modelled as exact rationals (`ℚ`).  `x / 0 = 0` in
  `ℚ`, whereas JS produces `Infinity`/`NaN`; theorems that depend on a
  division therefore carry positivity hypotheses that rule those inputs out.
* `Math.sqrt` is real-valued and not representable in `ℚ`; every function
  that needs it is parametrised by an explicit `sqrt : ℚ → ℚ` model.  The
  properties proved only use facts that `Math.sqrt` guarantees (non-negative
  output on non-negative input, `sqrt 0 = 0`), supplied as hypotheses.
* `Number.prototype.toFixed(2)` followed by `parseFloat` is modelled by
  `toFixed2` (rounding to two decimals).
* `throw new Error(...)` with a sized message is modelled by
  `Except.error (IndErr.insufficient n)` where `n` is the required count.
* Reason strings are modelled by the `Reason` tag of the branch that
  produced them; timestamps by the candle index.
* `Math.random()` and `new Date()` are modelled by explicit arguments
  (`Env`, index arguments, `OffspringPlan`) so that determinism claims are
  about the absence of such inputs in a code path.
-/

namespace CoinPilot

attribute [local semireducible] Rat.add Rat.mul Rat.inv Rat.sub Rat.ofScientific

/-- One candle of market data; only the fields the core reads are kept:
`trade_price` and `candle_acc_trade_volume`. -/
structure Candle where
  trade_price : ℚ
  candle_acc_trade_volume : ℚ
  deriving Repr, DecidableEq, Inhabited

/-- Rounding to two decimal places, modelling `parseFloat(x.toFixed(2))`. -/
def toFixed2 (q : ℚ) : ℚ := (round (q * 100) : ℤ) / 100

/-- Largest `k ≤ n` with `k * k ≤ n`, by structural fold (kernel-reducible,
unlike `Nat.sqrt`). -/
def natSqrtFold (n : ℕ) : ℕ :=
  (List.range (n + 1)).foldl (fun acc k => if k * k ≤ n then k else acc) 0

/-- A computable stand-in for `Math.sqrt` used when theorems are instantiated
at concrete inputs: integer square root of the scaled numerator.  It agrees
with `Math.sqrt` at perfect squares of integers (in particular at 0). -/
def ratSqrt (q : ℚ) : ℚ := (natSqrtFold (q.num.toNat * q.den) : ℚ) / (q.den : ℚ)

theorem ratSqrt_nonneg : ∀ q : ℚ, 0 ≤ q → 0 ≤ ratSqrt q := by
  intro q _
  unfold ratSqrt
  positivity

/-- Error raised by an indicator on insufficient data, carrying the number of
candles the function demands (the `${n}개의 캔들` of the JS message). -/
inductive IndErr where
  | insufficient (required : Nat)
  deriving Repr, DecidableEq

/-- `true` on `Except.error`, i.e. the JS function threw. -/
def isErr {α : Type} (x : Except IndErr α) : Bool :=
  match x with
  | .error _ => true
  | .ok _ => false

/-! ## Indicator library (src/analysis/technicalIndicators.js) -/

/-- Positive part of a price delta (`difference >= 0 ? difference : 0`). -/
def gainOf (d : ℚ) : ℚ := if 0 ≤ d then d else 0

/-- Negative part of a price delta (`difference < 0 ? -difference : 0`). -/
def lossOf (d : ℚ) : ℚ := if 0 ≤ d then 0 else -d

/-- One step of Wilder smoothing: `(avg*(period-1) + current) / period`. -/
def wilder (period : ℕ) (avg cur : ℚ) : ℚ :=
  (avg * ((period : ℚ) - 1) + cur) / (period : ℚ)

/-- The consecutive price differences `prices[i] − prices[i-1]` of the
reversed (oldest-first) price list. -/
def rsiDeltas (candles : List Candle) : List ℚ :=
  let prices := (candles.map (·.trade_price)).reverse
  List.zipWith (· - ·) (prices.drop 1) prices

/-- The `(avgGain, avgLoss)` pair of `calculateRSI`: first averages over the
first `period` deltas, then Wilder smoothing over the rest. -/
def rsiAvgs (period : ℕ) (deltas : List ℚ) : ℚ × ℚ :=
  let avgGain0 := ((deltas.take period).map gainOf).sum / (period : ℚ)
  let avgLoss0 := ((deltas.take period).map lossOf).sum / (period : ℚ)
  (deltas.drop period).foldl
    (fun (p : ℚ × ℚ) d => (wilder period p.1 (gainOf d), wilder period p.2 (lossOf d)))
    (avgGain0, avgLoss0)

/-- The final RSI formula: 100 when the average loss is zero, otherwise
`100 − 100/(1 + RS)`. -/
def rsiOf (avgs : ℚ × ℚ) : Except IndErr ℚ :=
  if avgs.2 = 0 then .ok 100
  else .ok (100 - 100 / (1 + avgs.1 / avgs.2))

/-- `calculateRSI(candles, period)`.  Candles are newest-first; the JS code
reverses them, takes the average gain/loss over the first `period` deltas and
then applies Wilder smoothing over the rest. -/
def calculateRSI (candles : List Candle) (period : ℕ) : Except IndErr ℚ :=
  if candles.length < period + 1 then .error (.insufficient (period + 1))
  else rsiOf (rsiAvgs period (rsiDeltas candles))

/-- `calculateEMA(prices, period)`: seeded with the first price, multiplier
`2/(period+1)`.  The JS code is only ever called on non-empty lists; the
empty case returns 0. -/
def calculateEMA (prices : List ℚ) (period : ℕ) : ℚ :=
  match prices with
  | [] => 0
  | p :: rest => rest.foldl (fun e x => (x - e) * (2 / ((period : ℚ) + 1)) + e) p

/-- `calculateEMAAtIndex(prices, period, index)`: the same recursion stopped
at `index`. -/
def calculateEMAAtIndex (prices : List ℚ) (period index : ℕ) : ℚ :=
  calculateEMA (prices.take (index + 1)) period

/-- Result triple of `calculateMACD`. -/
structure MacdVals where
  macd : ℚ
  signalLine : ℚ
  histogram : ℚ
  deriving Repr, DecidableEq

/-- `calculateMACD(candles, fastPeriod, slowPeriod, signalPeriod)`. -/
def calculateMACD (candles : List Candle) (fastPeriod slowPeriod signalPeriod : ℕ) :
    Except IndErr MacdVals :=
  if candles.length < slowPeriod + signalPeriod then
    .error (.insufficient (slowPeriod + signalPeriod))
  else
    let prices := (candles.map (·.trade_price)).reverse
    let macdLine := calculateEMA prices fastPeriod - calculateEMA prices slowPeriod
    let macdValues := ((List.range prices.length).drop (slowPeriod - 1)).map
      (fun i => calculateEMAAtIndex prices fastPeriod i - calculateEMAAtIndex prices slowPeriod i)
    let signalLine := calculateEMA macdValues signalPeriod
    .ok ⟨macdLine, signalLine, macdLine - signalLine⟩

/-- Result of `calculateBollingerBands`, including the current price the JS
object carries alongside the three bands. -/
structure BBVals where
  upper : ℚ
  middle : ℚ
  lower : ℚ
  currentPrice : ℚ
  deriving Repr, DecidableEq

/-- `calculateBollingerBands(candles, period, stdDev)`: SMA of the most
recent `period` prices ± population standard deviation × multiplier.
`sqrt` models `Math.sqrt`. -/
def calculateBollingerBands (sqrt : ℚ → ℚ) (candles : List Candle) (period : ℕ)
    (stdDev : ℚ) : Except IndErr BBVals :=
  if candles.length < period then .error (.insufficient period)
  else
    let prices := (candles.take period).map (·.trade_price)
    let middle := prices.sum / (period : ℚ)
    let variance := (prices.map (fun p => (p - middle) ^ 2)).sum / (period : ℚ)
    let sd := sqrt variance
    .ok ⟨middle + sd * stdDev, middle, middle - sd * stdDev,
         (candles.headD default).trade_price⟩

/-- `calculateMA(candles, period)`: simple moving average of the most recent
`period` prices. -/
def calculateMA (candles : List Candle) (period : ℕ) : Except IndErr ℚ :=
  if candles.length < period then .error (.insufficient period)
  else .ok (((candles.take period).map (·.trade_price)).sum / (period : ℚ))

/-- Crossover state of the short/long moving averages. -/
inductive CrossoverState where
  | golden
  | dead
  | nocross
  deriving Repr, DecidableEq

/-- `checkCrossover(candles, shortPeriod, longPeriod)`.  Insufficient data
returns `'none'` (`nocross`), it does not throw; the inner `calculateMA`
calls can still throw when `shortPeriod > longPeriod + 1`, which the JS
caller would see as an exception. -/
def checkCrossover (candles : List Candle) (shortPeriod longPeriod : ℕ) :
    Except IndErr CrossoverState :=
  if candles.length < longPeriod + 1 then .ok .nocross
  else do
    let currentShortMA ← calculateMA candles shortPeriod
    let currentLongMA ← calculateMA candles longPeriod
    let prevShortMA ← calculateMA (candles.drop 1) shortPeriod
    let prevLongMA ← calculateMA (candles.drop 1) longPeriod
    if prevShortMA ≤ prevLongMA ∧ currentShortMA > currentLongMA then pure .golden
    else if prevShortMA ≥ prevLongMA ∧ currentShortMA < currentLongMA then pure .dead
    else pure .nocross

/-- Result of `analyzeVolume`; only the two fields the rest of the core reads
are kept (`currentVolume`/`averageVolume` are unused downstream). -/
structure VolumeInfo where
  isHighVolume : Bool
  ratioToAvg : ℚ
  deriving Repr, DecidableEq

/-- `analyzeVolume(candles, period)`: never throws; insufficient data yields
`{isHighVolume: false, volumeRatio: 0}`. -/
def analyzeVolume (candles : List Candle) (period : ℕ) : VolumeInfo :=
  if candles.length < period then ⟨false, 0⟩
  else
    let currentVolume := (candles.headD default).candle_acc_trade_volume
    let avgVolume :=
      (((candles.drop 1).take period).map (·.candle_acc_trade_volume)).sum / (period : ℚ)
    let r := currentVolume / avgVolume
    ⟨decide (r > 3/2), r⟩

/-- Trading action of a decision or recommendation. -/
inductive Action where
  | buy
  | sell
  | hold
  deriving Repr, DecidableEq

/-- The `signals` part of `comprehensiveAnalysis`: weighted buy/sell counters
(rational, because high volume scales them by 1.2) and the recommendation. -/
structure Signals where
  buy : ℚ
  sell : ℚ
  recommendation : Action
  deriving Repr, DecidableEq

/-- Snapshot produced by `comprehensiveAnalysis`.  The JS object stores the
numeric indicator values as `toFixed(2)` strings which consumers re-parse;
the fields here hold the corresponding `toFixed2`-rounded rationals. -/
structure Analysis where
  rsi : ℚ
  macd : MacdVals
  bollingerBands : BBVals
  crossover : CrossoverState
  volume : VolumeInfo
  signals : Signals
  deriving Repr, DecidableEq

/-- Configuration consumed by `comprehensiveAnalysis`, with the JS defaults. -/
structure AnalysisConfig where
  rsiPeriod : ℕ := 14
  rsiOversold : ℚ := 30
  rsiOverbought : ℚ := 70
  macdFast : ℕ := 12
  macdSlow : ℕ := 26
  macdSignal : ℕ := 9
  bbPeriod : ℕ := 20
  bbStdDev : ℚ := 2
  deriving Repr, DecidableEq

/-- `comprehensiveAnalysis(candles, config)`: runs RSI, MACD, Bollinger,
crossover and volume, accumulates the buy/sell signal counters, and returns
`null` (`none`) when any sub-indicator throws — the try/catch of the JS
function. -/
def comprehensiveAnalysis (sqrt : ℚ → ℚ) (candles : List Candle)
    (cfg : AnalysisConfig) : Option Analysis :=
  match calculateRSI candles cfg.rsiPeriod,
        calculateMACD candles cfg.macdFast cfg.macdSlow cfg.macdSignal,
        calculateBollingerBands sqrt candles cfg.bbPeriod cfg.bbStdDev,
        checkCrossover candles 5 20 with
  | .ok rsi, .ok macd, .ok bb, .ok crossover =>
    let volume := analyzeVolume candles 20
    let buy0 : ℚ := (if rsi < cfg.rsiOversold then 1 else 0)
      + (if macd.histogram > 0 ∧ macd.macd > macd.signalLine then 1 else 0)
      + (if bb.currentPrice < bb.lower then 1 else 0)
      + (if crossover = .golden then 2 else 0)
    let sell0 : ℚ := (if rsi > cfg.rsiOverbought then 1 else 0)
      + (if macd.histogram < 0 ∧ macd.macd < macd.signalLine then 1 else 0)
      + (if bb.currentPrice > bb.upper then 1 else 0)
      + (if crossover = .dead then 2 else 0)
    let buySignals := if volume.isHighVolume then buy0 * (6/5) else buy0
    let sellSignals := if volume.isHighVolume then sell0 * (6/5) else sell0
    some
      { rsi := toFixed2 rsi
        macd := ⟨toFixed2 macd.macd, toFixed2 macd.signalLine, toFixed2 macd.histogram⟩
        bollingerBands := ⟨toFixed2 bb.upper, toFixed2 bb.middle, toFixed2 bb.lower,
                           toFixed2 bb.currentPrice⟩
        crossover := crossover
        volume := volume
        signals := ⟨buySignals, sellSignals,
          if buySignals > sellSignals then .buy
          else if sellSignals > buySignals then .sell else .hold⟩ }
  | _, _, _, _ => none

/-! ## Decision engine (src/strategy/tradingStrategy.js) -/

/-- Tag standing for the reason string a branch of the strategy produced. -/
inductive Reason where
  | dataInsufficient
  | buySignal
  | sellSignal
  | buyOnlySuppressed
  | noSignal
  | stopLoss
  | takeProfit
  | endOfBacktest
  deriving Repr, DecidableEq

/-- Overall label of a sentiment summary (`'very positive'` … ). -/
inductive SentLabel where
  | veryPositive
  | positive
  | neutral
  | negative
  | veryNegative
  deriving Repr, DecidableEq

/-- News-sentiment summary as the strategy parses it: numeric score and the
positive/negative percentages obtained by `parseFloat` of the `%` strings. -/
structure Sentiment where
  overall : SentLabel
  score : ℚ
  posRatioPct : ℚ
  negRatioPct : ℚ
  deriving Repr, DecidableEq

/-- `TradingStrategy` configuration after the constructor's `||` defaulting. -/
structure StrategyConfig where
  technicalWeight : ℚ := 3/5
  newsWeight : ℚ := 2/5
  buyThreshold : ℚ := 55
  sellThreshold : ℚ := 55
  buyOnly : Bool := false
  stopLossPercent : ℚ := 5
  takeProfitPercent : ℚ := 10
  deriving Repr, DecidableEq

/-- An open position; the engine only ever reads entry price and amount. -/
structure Position where
  entryPrice : ℚ
  amount : ℚ
  deriving Repr, DecidableEq

/-- `calculateTechnicalScore(analysis)`: starts at 50, adjusts for RSI, MACD
histogram, Bollinger breach, crossover, high volume, and the signal counters,
then clamps to [0,100]. -/
def calculateTechnicalScore (a : Analysis) : ℚ :=
  let s0 : ℚ := 50
  let s1 := if a.rsi < 30 then s0 + 15
            else if a.rsi > 70 then s0 - 15
            else s0 + (50 - a.rsi) / 4
  let h := a.macd.histogram
  let s2 := if h > 0 then s1 + min (h * 2) 10 else s1 + max (h * 2) (-10)
  let s3 := if a.bollingerBands.currentPrice < a.bollingerBands.lower then s2 + 10
            else if a.bollingerBands.currentPrice > a.bollingerBands.upper then s2 - 10
            else s2
  let s4 := if a.crossover = .golden then s3 + 15
            else if a.crossover = .dead then s3 - 15
            else s3
  let s5 := if a.volume.isHighVolume then
              (if s4 > 50 then s4 + 5 else if s4 < 50 then s4 - 5 else s4)
            else s4
  let s6 := s5 + (a.signals.buy - a.signals.sell) * 2
  max 0 (min 100 s6)

/-- Fixed bonus/penalty applied per overall sentiment label. -/
def labelBonus : SentLabel → ℚ
  | .veryPositive => 15
  | .positive => 8
  | .neutral => 0
  | .negative => -8
  | .veryNegative => -15

/-- `calculateNewsScore(sentiment)`: 50 + score×5 + (ratio difference)×20 +
label bonus, clamped to [0,100]. -/
def calculateNewsScore (s : Sentiment) : ℚ :=
  let sc := 50 + s.score * 5 + (s.posRatioPct / 100 - s.negRatioPct / 100) * 20
            + labelBonus s.overall
  max 0 (min 100 sc)

/-- Signal-strength tier. -/
inductive SLevel where
  | lnone
  | weak
  | medium
  | strong
  | veryStrong
  deriving Repr, DecidableEq

/-- Tier, investment multiplier and distance past the threshold. -/
structure StrengthInfo where
  level : SLevel
  multiplier : ℚ
  score : ℚ
  deriving Repr, DecidableEq

/-- Tier bands shared by the BUY and SELL arms of
`calculateSignalStrength`. -/
def strengthOf (excess : ℚ) : StrengthInfo :=
  if excess ≥ 15 then ⟨.veryStrong, 3, excess⟩
  else if excess ≥ 8 then ⟨.strong, 11/5, excess⟩
  else if excess ≥ 3 then ⟨.medium, 3/2, excess⟩
  else if excess ≥ 0 then ⟨.weak, 1, excess⟩
  else ⟨.lnone, 0, 0⟩

/-- `calculateSignalStrength(totalScore, action)`. -/
def calculateSignalStrength (cfg : StrategyConfig) (totalScore : ℚ)
    (action : Action) : StrengthInfo :=
  match action with
  | .buy => strengthOf (totalScore - cfg.buyThreshold)
  | .sell => strengthOf ((100 - cfg.sellThreshold) - totalScore)
  | .hold => ⟨.lnone, 0, 0⟩

/-- Result of `checkPosition`; `reason` is `noSignal` when not closing (the
JS object then simply lacks the field). -/
structure PositionCheck where
  shouldClose : Bool
  reason : Reason
  deriving Repr, DecidableEq

/-- `checkPosition(currentPrice)`: stop-loss / take-profit on the percentage
change of `currentPrice` against the entry price. -/
def checkPosition (cfg : StrategyConfig) (pos : Option Position)
    (currentPrice : ℚ) : PositionCheck :=
  match pos with
  | Option.none => ⟨false, .noSignal⟩
  | some p =>
    let priceChange := (currentPrice - p.entryPrice) / p.entryPrice * 100
    if priceChange ≤ -cfg.stopLossPercent then ⟨true, .stopLoss⟩
    else if priceChange ≥ cfg.takeProfitPercent then ⟨true, .takeProfit⟩
    else ⟨false, .noSignal⟩

/-- Component scores attached to a decision. -/
structure Scores where
  technical : ℚ
  news : ℚ
  total : ℚ
  deriving Repr, DecidableEq

/-- A trading decision.  `signalStrength` and `scores` are `none` exactly for
the early data-insufficiency return, whose JS object lacks those fields. -/
structure Decision where
  action : Action
  reason : Reason
  confidence : ℚ
  signalStrength : Option StrengthInfo
  scores : Option Scores
  deriving Repr, DecidableEq

/-- `makeDecision(technicalAnalysis, newsSentiment, currentPrice)`.  The
position used by the stop-loss/take-profit override is the strategy's
`this.currentPosition`, passed explicitly. -/
def makeDecision (cfg : StrategyConfig) (currentPosition : Option Position)
    (technicalAnalysis : Option Analysis) (newsSentiment : Option Sentiment)
    (currentPrice : ℚ) : Decision :=
  match technicalAnalysis, newsSentiment with
  | some ta, some ns =>
    let technicalScore := calculateTechnicalScore ta
    let newsScore := calculateNewsScore ns
    let totalScore := technicalScore * cfg.technicalWeight + newsScore * cfg.newsWeight
    let base : Action × Reason × ℚ :=
      if totalScore ≥ cfg.buyThreshold then
        (.buy, .buySignal, (totalScore - cfg.buyThreshold) / (100 - cfg.buyThreshold))
      else if totalScore ≤ 100 - cfg.sellThreshold then
        if cfg.buyOnly then (.hold, .buyOnlySuppressed, 1/2)
        else (.sell, .sellSignal, (cfg.sellThreshold - totalScore) / cfg.sellThreshold)
      else (.hold, .noSignal, 1/2)
    let final : Action × Reason × ℚ :=
      match currentPosition with
      | some p =>
        let pc := checkPosition cfg (some p) currentPrice
        if pc.shouldClose then (.sell, pc.reason, 1) else base
      | Option.none => base
    { action := final.1
      reason := final.2.1
      confidence := toFixed2 final.2.2
      signalStrength := some (calculateSignalStrength cfg totalScore final.1)
      scores := some ⟨toFixed2 technicalScore, toFixed2 newsScore, toFixed2 totalScore⟩ }
  | _, _ => ⟨.hold, .dataInsufficient, 0, Option.none, Option.none⟩

/-- Tag of a trade-history record. -/
inductive TradeAction where
  | topen
  | tclose
  | partialClose
  deriving Repr, DecidableEq

/-- A CLOSE / PARTIAL_CLOSE record appended to the strategy's trade history. -/
structure TradeRecord where
  action : TradeAction
  entryPrice : ℚ
  exitPrice : ℚ
  amount : ℚ
  grossProfit : ℚ
  profit : ℚ
  profitPercent : ℚ
  totalFee : ℚ
  reason : Reason
  deriving Repr, DecidableEq

/-- Mutable state of a `TradingStrategy` instance: at most one open position
and the append-only trade history. -/
structure StrategyState where
  currentPosition : Option Position
  tradeHistory : List TradeRecord
  deriving Repr, DecidableEq

/-- The strategy's fixed per-side fee rate, 0.05%. -/
def FEE_RATE : ℚ := 1/2000

/-- `closePosition(price, reason, options)`: fee-aware full close.
`overrideNet` models `options.netProfit`; `none` if no position is open. -/
def closePosition (st : StrategyState) (price : ℚ) (reason : Reason)
    (overrideNet : Option ℚ) : Option TradeRecord × StrategyState :=
  match st.currentPosition with
  | Option.none => (Option.none, st)
  | some p =>
    let buyFee := p.entryPrice * p.amount * FEE_RATE
    let sellFee := price * p.amount * FEE_RATE
    let totalFee := buyFee + sellFee
    let grossProfit := (price - p.entryPrice) * p.amount
    let netProfit := match overrideNet with
      | some v => v
      | Option.none => grossProfit - totalFee
    let netProfitPercent := netProfit / (p.entryPrice * p.amount) * 100
    let r : TradeRecord :=
      ⟨.tclose, p.entryPrice, price, p.amount, grossProfit, netProfit,
       netProfitPercent, totalFee, reason⟩
    (some r, ⟨Option.none, st.tradeHistory ++ [r]⟩)

/-- `recordPartialSell(price, soldAmount, reason)`: prorated-fee partial
close; delegates to `closePosition` when the whole amount is sold, no-op on
misuse. -/
def recordPartialSell (st : StrategyState) (price soldAmount : ℚ)
    (reason : Reason) : Option TradeRecord × StrategyState :=
  match st.currentPosition with
  | Option.none => (Option.none, st)
  | some p =>
    if soldAmount ≤ 0 then (Option.none, st)
    else if soldAmount ≥ p.amount then closePosition st price reason Option.none
    else
      let buyFeeForSold := p.entryPrice * soldAmount * FEE_RATE
      let sellFee := price * soldAmount * FEE_RATE
      let totalFee := buyFeeForSold + sellFee
      let grossProfit := (price - p.entryPrice) * soldAmount
      let netProfit := grossProfit - totalFee
      let netProfitPercent := netProfit / (p.entryPrice * soldAmount) * 100
      let r : TradeRecord :=
        ⟨.partialClose, p.entryPrice, price, soldAmount, grossProfit, netProfit,
         netProfitPercent, totalFee, reason⟩
      (some r, ⟨some ⟨p.entryPrice, p.amount - soldAmount⟩, st.tradeHistory ++ [r]⟩)

/-- The `makeDecision` method at the strategy level: it reads
`this.currentPosition` and assigns nothing, so the state passes through
unchanged. -/
def strategyMakeDecision (st : StrategyState) (cfg : StrategyConfig)
    (ta : Option Analysis) (ns : Option Sentiment) (price : ℚ) :
    Decision × StrategyState :=
  (makeDecision cfg st.currentPosition ta ns price, st)

/-! ## Backtest simulator (src/backtest/backtestEngine.js) -/

/-- Engine configuration after the constructor's `||` defaulting. -/
structure BtConfig where
  initialBalance : ℚ := 1000000
  tradingFee : ℚ := 1/2000
  slippage : ℚ := 1/1000
  deriving Repr, DecidableEq

/-- The parts of `strategyConfig` the `run` loop itself reads, resolved: the
RSI triple forwarded to `comprehensiveAnalysis`, the optional fixed
investment amount, and the strategy configuration. -/
structure RunConfig where
  scfg : StrategyConfig := {}
  rsiPeriod : ℕ := 14
  rsiOversold : ℚ := 30
  rsiOverbought : ℚ := 70
  investmentAmount : Option ℚ := Option.none
  deriving Repr, DecidableEq

/-- The analysis configuration `run` builds: only the RSI fields come from
the strategy config, the rest stay at the library defaults. -/
def acfgOf (rc : RunConfig) : AnalysisConfig :=
  { rsiPeriod := rc.rsiPeriod, rsiOversold := rc.rsiOversold,
    rsiOverbought := rc.rsiOverbought }

/-- The fixed neutral mock sentiment the backtest feeds the strategy
(`score: 0`, ratios `'33.3%'`, overall `'neutral'`). -/
def mockNewsSentiment : Sentiment := ⟨.neutral, 0, 333/10, 333/10⟩

/-- `applySlippage(price, side)`. -/
def applySlippage (cfg : BtConfig) (price : ℚ) (isBuy : Bool) : ℚ :=
  if isBuy then price * (1 + cfg.slippage) else price * (1 - cfg.slippage)

/-- `strategyConfig.investmentAmount || balance * 0.1` (`0` is falsy). -/
def resolveInvest (rc : RunConfig) (balance : ℚ) : ℚ :=
  match rc.investmentAmount with
  | Option.none => balance * (1/10)
  | some a => if a = 0 then balance * (1/10) else a

/-- Kind of a simulator trade-log entry. -/
inductive BtKind where
  | opened
  | closed
  deriving Repr, DecidableEq

/-- One entry of the simulator's trade log.  OPEN entries record the invested
amount; CLOSE entries record exit price and gross profit.  Fields a JS entry
of the other kind lacks are zero-filled.  `time` is the candle index. -/
structure BtTrade where
  kind : BtKind
  entryPrice : ℚ
  exitPrice : ℚ
  amount : ℚ
  profit : ℚ
  profitPercent : ℚ
  investAmount : ℚ
  balanceAfter : ℚ
  reason : Reason
  time : ℕ
  deriving Repr, DecidableEq

/-- One sample of the equity curve (`balanceHistory`). -/
structure EquityPoint where
  time : ℕ
  balance : ℚ
  price : ℚ
  deriving Repr, DecidableEq

/-- Loop state of `run`: running balance, open position, trade log and
equity curve. -/
structure BtState where
  balance : ℚ
  position : Option Position
  trades : List BtTrade
  history : List EquityPoint
  deriving Repr, DecidableEq

/-- Shared close path of the simulator (stop/take close, decision SELL and
end-of-data close): credit proceeds minus fee, record a CLOSE trade whose
`profit` is the gross `(sellPrice − entryPrice) × amount`, drop the
position. -/
def engineClose (cfg : BtConfig) (st : BtState) (p : Position) (sellPrice : ℚ)
    (reason : Reason) (time : ℕ) : BtState :=
  let sellAmount := p.amount * sellPrice
  let fee := sellAmount * cfg.tradingFee
  let newBalance := st.balance + sellAmount - fee
  { balance := newBalance
    position := Option.none
    trades := st.trades ++
      [⟨.closed, p.entryPrice, sellPrice, p.amount,
        (sellPrice - p.entryPrice) * p.amount,
        (sellPrice - p.entryPrice) / p.entryPrice * 100,
        0, newBalance, reason, time⟩]
    history := st.history }

/-- BUY path of the simulator: deduct the full `investAmount` from the
balance, deduct the fee from the invested amount, convert the rest at the
slippage-adjusted price, record an OPEN trade. -/
def engineOpen (cfg : BtConfig) (st : BtState) (investAmount price : ℚ)
    (reason : Reason) (time : ℕ) : BtState :=
  let buyPrice := applySlippage cfg price true
  let fee := investAmount * cfg.tradingFee
  let amount := (investAmount - fee) / buyPrice
  let newBalance := st.balance - investAmount
  { balance := newBalance
    position := some ⟨buyPrice, amount⟩
    trades := st.trades ++
      [⟨.opened, buyPrice, 0, amount, 0, 0, investAmount, newBalance, reason, time⟩]
    history := st.history }

/-- The "포지션 체크 (손절/익절)" block of the loop body: if a position is
open and its stop-loss/take-profit check fires, close it at the
slippage-adjusted price. -/
def btStage1 (cfg : BtConfig) (rc : RunConfig) (price : ℚ) (time : ℕ)
    (st : BtState) : BtState :=
  match st.position with
  | some p =>
    if (checkPosition rc.scfg (some p) price).shouldClose then
      engineClose cfg st p (applySlippage cfg price false)
        (checkPosition rc.scfg (some p) price).reason time
    else st
  | Option.none => st

/-- The "매수 신호" block: on BUY with no open position and positive
balance, invest `min(investmentAmount || 10% of balance, 95% of balance)`
when it reaches the 5000 minimum notional. -/
def btStage2 (cfg : BtConfig) (rc : RunConfig) (decision : Decision)
    (price : ℚ) (time : ℕ) (st1 : BtState) : BtState :=
  if decision.action = Action.buy ∧ st1.position = Option.none ∧ 0 < st1.balance then
    if 5000 ≤ min (resolveInvest rc st1.balance) (st1.balance * (95/100)) then
      engineOpen cfg st1 (min (resolveInvest rc st1.balance) (st1.balance * (95/100)))
        price decision.reason time
    else st1
  else st1

/-- The "매도 신호" block: an explicit SELL decision closes the whole open
position at the slippage-adjusted price. -/
def btStage3 (cfg : BtConfig) (decision : Decision) (price : ℚ) (time : ℕ)
    (st2 : BtState) : BtState :=
  match st2.position with
  | some p =>
    if decision.action = Action.sell then
      engineClose cfg st2 p (applySlippage cfg price false) decision.reason time
    else st2
  | Option.none => st2

/-- The "잔고 히스토리 기록" block: push one mark-to-market equity sample. -/
def btRecordEquity (price : ℚ) (time : ℕ) (st3 : BtState) : BtState :=
  { st3 with history := st3.history ++
      [⟨time, st3.balance +
         (match st3.position with | some p => p.amount * price | Option.none => 0),
        price⟩] }

/-- The body of one iteration of the `run` loop, given the already computed
technical analysis of the rolling window.  `null` analysis skips the step
entirely (`continue`).  The decision is made against the position as it
stood at the start of the step, before the stop/take check, as in the
source. -/
def btStepCore (cfg : BtConfig) (rc : RunConfig) (price : ℚ) (time : ℕ)
    (ta : Option Analysis) (st : BtState) : BtState :=
  match ta with
  | Option.none => st
  | some a =>
    let decision := makeDecision rc.scfg st.position (some a) (some mockNewsSentiment) price
    btRecordEquity price time
      (btStage3 cfg decision price time
        (btStage2 cfg rc decision price time
          (btStage1 cfg rc price time st)))

/-- One full iteration at index `i`: build the 200-candle rolling window
(`slice(i-200, i).reverse()`), run `comprehensiveAnalysis`, then the step
body. -/
def btStep (sqrt : ℚ → ℚ) (cfg : BtConfig) (rc : RunConfig) (data : List Candle)
    (st : BtState) (i : ℕ) : BtState :=
  btStepCore cfg rc (data.getD i default).trade_price i
    (comprehensiveAnalysis sqrt (((data.drop (i - 200)).take 200).reverse) (acfgOf rc)) st

/-- The loop of `run`: fold the step over the indices 200 … length−1
starting from the initial balance with no position. -/
def btLoopState (sqrt : ℚ → ℚ) (cfg : BtConfig) (rc : RunConfig)
    (data : List Candle) : BtState :=
  ((List.range data.length).drop 200).foldl (btStep sqrt cfg rc data)
    ⟨cfg.initialBalance, Option.none, [], []⟩

/-- The "마지막 포지션 정리" block: force-close any surviving position at
the last available price (no slippage), with the end-of-backtest reason. -/
def btForceClose (cfg : BtConfig) (data : List Candle) (st : BtState) : BtState :=
  match st.position with
  | some p =>
    engineClose cfg st p (data.getD (data.length - 1) default).trade_price
      Reason.endOfBacktest (data.length - 1)
  | Option.none => st

/-- `calculateMaxDrawdown(balanceHistory)`. -/
def calculateMaxDrawdown (history : List EquityPoint) : ℚ :=
  (history.foldl
    (fun (acc : ℚ × ℚ) pt =>
      let peak := if pt.balance > acc.2 then pt.balance else acc.2
      let drawdown := (peak - pt.balance) / peak * 100
      (if drawdown > acc.1 then drawdown else acc.1, peak))
    (0, (history.headD ⟨0, 0, 0⟩).balance)).1

/-- `calculateSharpeRatio(balanceHistory)`: mean/σ of per-step returns times
`Math.sqrt(365)`, 0 when fewer than 2 samples or zero variance. -/
def calculateSharpeRatio (sqrt : ℚ → ℚ) (history : List EquityPoint) : ℚ :=
  if history.length < 2 then 0
  else
    let balances := history.map (·.balance)
    let returns := List.zipWith (fun b a => (b - a) / a) (balances.drop 1) balances
    let avgReturn := returns.sum / (returns.length : ℚ)
    let variance := (returns.map (fun r => (r - avgReturn) ^ 2)).sum / (returns.length : ℚ)
    let stdDev := sqrt variance
    if stdDev > 0 then avgReturn / stdDev * sqrt 365 else 0

/-- `findBestTrade`: JS `reduce` whose accumulator test is
`trade.profit > (best?.profit || -Infinity)` — when the best-so-far profit
is exactly 0 the falsy check makes any candidate win. -/
def findBestTrade (trades : List BtTrade) : Option BtTrade :=
  match trades with
  | [] => Option.none
  | t :: rest =>
    some (rest.foldl (fun best tr =>
      if best.profit = 0 then tr
      else if tr.profit > best.profit then tr else best) t)

/-- `findWorstTrade`, with the symmetric `|| Infinity` quirk. -/
def findWorstTrade (trades : List BtTrade) : Option BtTrade :=
  match trades with
  | [] => Option.none
  | t :: rest =>
    some (rest.foldl (fun worst tr =>
      if worst.profit = 0 then tr
      else if tr.profit < worst.profit then tr else worst) t)

/-- `BacktestResult`.  `profitFactor = none` models the `Infinity` sentinel.
In the zero-trade branch the JS object simply lacks `bestTrade`,
`worstTrade` and `trades`; here they are `none` / `[]`. -/
structure BacktestResult where
  rc : RunConfig
  initialBalance : ℚ
  finalBalance : ℚ
  totalReturn : ℚ
  totalReturnPercent : ℚ
  totalTrades : ℕ
  winningTrades : ℕ
  losingTrades : ℕ
  winRate : ℚ
  avgProfit : ℚ
  avgWin : ℚ
  avgLoss : ℚ
  maxDrawdown : ℚ
  sharpeRatio : ℚ
  profitFactor : Option ℚ
  bestTrade : Option BtTrade
  worstTrade : Option BtTrade
  balanceHistory : List EquityPoint
  trades : List BtTrade
  deriving Repr, DecidableEq

/-- `calculateResults(trades, finalBalance, balanceHistory, config)`. -/
def calculateResults (sqrt : ℚ → ℚ) (cfg : BtConfig) (rc : RunConfig)
    (trades : List BtTrade) (finalBalance : ℚ) (history : List EquityPoint) :
    BacktestResult :=
  let closedTrades := trades.filter (fun t => t.kind = BtKind.closed)
  if closedTrades.isEmpty then
    { rc := rc, initialBalance := cfg.initialBalance, finalBalance := finalBalance
      totalReturn := 0, totalReturnPercent := 0, totalTrades := 0
      winningTrades := 0, losingTrades := 0, winRate := 0
      avgProfit := 0, avgWin := 0, avgLoss := 0, maxDrawdown := 0
      sharpeRatio := 0, profitFactor := some 0
      bestTrade := Option.none, worstTrade := Option.none
      balanceHistory := history, trades := closedTrades }
  else
    let totalReturn := finalBalance - cfg.initialBalance
    let winningTrades := closedTrades.filter (fun t => t.profit > 0)
    let losingTrades := closedTrades.filter (fun t => t.profit ≤ 0)
    let totalProfit := (closedTrades.map (·.profit)).sum
    let totalWin := (winningTrades.map (·.profit)).sum
    let totalLoss := |(losingTrades.map (·.profit)).sum|
    { rc := rc
      initialBalance := cfg.initialBalance
      finalBalance := finalBalance
      totalReturn := totalReturn
      totalReturnPercent := totalReturn / cfg.initialBalance * 100
      totalTrades := closedTrades.length
      winningTrades := winningTrades.length
      losingTrades := losingTrades.length
      winRate := (winningTrades.length : ℚ) / (closedTrades.length : ℚ) * 100
      avgProfit := totalProfit / (closedTrades.length : ℚ)
      avgWin := if winningTrades.length > 0 then totalWin / (winningTrades.length : ℚ) else 0
      avgLoss := if losingTrades.length > 0 then totalLoss / (losingTrades.length : ℚ) else 0
      maxDrawdown := calculateMaxDrawdown history
      sharpeRatio := calculateSharpeRatio sqrt history
      profitFactor := if totalLoss > 0 then some (totalWin / totalLoss)
                      else if totalWin > 0 then Option.none
                      else some 0
      bestTrade := findBestTrade closedTrades
      worstTrade := findWorstTrade closedTrades
      balanceHistory := history
      trades := closedTrades }

/-- Ambient effects a JS function could read: a `Math.random()` stream and a
clock.  The backtest replay path never consumes either. -/
structure Env where
  randomStream : ℕ → ℚ
  now : ℕ

/-- `BacktestEngine.run(historicalData, strategyConfig)`: iterate indices
200 … length−1, force-close any surviving position at the last price, and
aggregate.  The second component is the engine's `this.trades` (OPEN and
CLOSE entries); the result's `trades` field keeps only CLOSE entries as in
the source.  `env` is threaded to document that the replay reads neither
randomness nor the clock. -/
def runBacktest (_env : Env) (sqrt : ℚ → ℚ) (cfg : BtConfig) (rc : RunConfig)
    (data : List Candle) : BacktestResult × List BtTrade :=
  (calculateResults sqrt cfg rc (btForceClose cfg data (btLoopState sqrt cfg rc data)).trades
     (btForceClose cfg data (btLoopState sqrt cfg rc data)).balance
     (btForceClose cfg data (btLoopState sqrt cfg rc data)).history,
   (btForceClose cfg data (btLoopState sqrt cfg rc data)).trades)

/-- The net profit a trade-log entry contributes: CLOSE entries contribute
their recorded `profit` field, OPEN entries nothing. -/
def tradeNet (t : BtTrade) : ℚ :=
  match t.kind with
  | .closed => t.profit
  | .opened => 0

/-- Sum of the net profits recorded in a trade log. -/
def netSum (ts : List BtTrade) : ℚ := (ts.map tradeNet).sum

/-- The notional on which the engine charged the trading fee for an entry:
the invested amount at OPEN, the proceeds `exitPrice × amount` at CLOSE. -/
def tradeFeeBase (t : BtTrade) : ℚ :=
  match t.kind with
  | .closed => t.exitPrice * t.amount
  | .opened => t.investAmount

/-- Total fee-bearing notional of a trade log; the fees actually deducted
from the balance are `tradingFee × feeBase`. -/
def feeBase (ts : List BtTrade) : ℚ := (ts.map tradeFeeBase).sum

/-- Entry value of the open position (`entryPrice × amount`), 0 if none. -/
def posVal : Option Position → ℚ
  | Option.none => 0
  | some p => p.entryPrice * p.amount

/-- The simulator's running-balance invariant: cash plus the entry value of
the open position equals the initial balance plus all recorded (gross)
profits minus all fees charged so far. -/
def BalInv (cfg : BtConfig) (st : BtState) : Prop :=
  st.balance + posVal st.position
    = cfg.initialBalance + netSum st.trades - cfg.tradingFee * feeBase st.trades

/-! ## Genetic optimizer (src/optimization/parameterOptimizer.js)

Randomness (`Math.random()`) is modelled by explicit index/roll arguments:
tournament indices, the crossover roll and cut point, the mutation roll and
choices. -/

/-- A `{min, max, step}` parameter range (`lo`/`hi` for Lean's `min`/`max`). -/
structure ParamRange where
  lo : ℚ
  hi : ℚ
  step : ℚ
  deriving Repr, DecidableEq, Inhabited

/-- `this.parameterRanges`, in source order.  JS objects preserve insertion
order, so this list order is the order `Object.keys` yields. -/
def parameterRanges : List (String × ParamRange) :=
  [ ( "rsiPeriod", ⟨5, 30, 1⟩),
    ( "rsiOversold", ⟨15, 45, 1⟩),
    ( "rsiOverbought", ⟨55, 85, 1⟩),
    ( "macdFast", ⟨5, 20, 1⟩),
    ( "macdSlow", ⟨15, 45, 1⟩),
    ( "macdSignal", ⟨5, 15, 1⟩),
    ( "bbPeriod", ⟨10, 30, 1⟩),
    ( "bbStdDev", ⟨3/2, 3, 1/10⟩),
    ( "emaShort", ⟨3, 20, 1⟩),
    ( "emaMid", ⟨15, 50, 1⟩),
    ( "emaLong", ⟨30, 200, 5⟩),
    ( "stopLossPercent", ⟨1, 15, 1/2⟩),
    ( "takeProfitPercent", ⟨2, 30, 1/2⟩),
    ( "trailingStopPercent", ⟨1/2, 10, 1/2⟩),
    ( "buyThreshold", ⟨40, 80, 1⟩),
    ( "sellThreshold", ⟨40, 80, 1⟩),
    ( "volumeMultiplier", ⟨1, 3, 1/10⟩),
    ( "volumePeriod", ⟨5, 30, 1⟩),
    ( "technicalWeight", ⟨2/5, 9/10, 1/20⟩),
    ( "investmentRatio", ⟨1/50, 3/20, 1/100⟩) ]

/-- The ordered parameter names (`Object.keys(this.parameterRanges)`). -/
def paramNames : List String := parameterRanges.map Prod.fst

/-- A parameter vector, with values aligned positionally with
`parameterRanges` (the key-insertion order of the JS object). -/
abbrev Individual := List ℚ

/-- The grid `min, min+step, …` of values `createRandomIndividual` and
`mutate` sample from (`for (val = min; val <= max; val += step)`, exact in
`ℚ`). -/
def gridValues (r : ParamRange) : List ℚ :=
  (List.range (((r.hi - r.lo) / r.step).floor.toNat + 1)).map
    (fun k => r.lo + (k : ℚ) * r.step)

/-- `crossover(parent1, parent2)`: single-point crossover at the random cut
`crossoverPoint ∈ [0, 19]`; entry `i` comes from parent 1 when
`i < crossoverPoint`, otherwise from parent 2. -/
def crossover (crossoverPoint : ℕ) (parent1 parent2 : Individual) : Individual :=
  (List.range paramNames.length).map
    (fun i => if i < crossoverPoint then parent1.getD i 0 else parent2.getD i 0)

/-- `mutate(individual)`: resample the parameter at the random index from its
grid. -/
def mutate (ind : Individual) (paramIdx valueIdx : ℕ) : Individual :=
  let r := (parameterRanges.getD paramIdx default).2
  ind.set paramIdx ((gridValues r).getD valueIdx 0)

/-- `tournamentSelection(rankedPopulation)`: pick the entries at the three
random indices and keep the fittest (`reduce` keeps the earlier entry on
ties). -/
def tournamentSelection (ranked : List (Individual × ℚ)) (idxs : List ℕ) :
    Individual :=
  match idxs.map (fun i => ranked.getD i default) with
  | [] => []
  | t :: ts => (ts.foldl (fun best cur => if cur.2 > best.2 then cur else best) t).1

/-- Optimizer configuration with the constructor defaults. -/
structure GAConfig where
  populationSize : ℕ := 20
  generations : ℕ := 10
  mutationRate : ℚ := 1/5
  crossoverRate : ℚ := 7/10
  eliteSize : ℕ := 2
  deriving Repr, DecidableEq

/-- The random draws one iteration of the offspring loop consumes. -/
structure OffspringPlan where
  tournamentIdxs1 : List ℕ
  tournamentIdxs2 : List ℕ
  crossRoll : ℚ
  crossPoint : ℕ
  mutRoll : ℚ
  mutParamIdx : ℕ
  mutValueIdx : ℕ
  deriving Repr, DecidableEq, Inhabited

/-- `createNextGeneration(rankedPopulation)`: copy the top `eliteSize`
individuals unchanged, then fill up to `populationSize` with
selection → probabilistic crossover → probabilistic mutation. -/
def createNextGeneration (cfg : GAConfig) (rankedPopulation : List (Individual × ℚ))
    (plans : ℕ → OffspringPlan) : List Individual :=
  let elites := (rankedPopulation.take cfg.eliteSize).map Prod.fst
  let offspring := (List.range (cfg.populationSize - cfg.eliteSize)).map (fun j =>
    let plan := plans j
    let parent1 := tournamentSelection rankedPopulation plan.tournamentIdxs1
    let parent2 := tournamentSelection rankedPopulation plan.tournamentIdxs2
    let child :=
      if plan.crossRoll < cfg.crossoverRate then crossover plan.crossPoint parent1 parent2
      else parent1
    if plan.mutRoll < cfg.mutationRate then mutate child plan.mutParamIdx plan.mutValueIdx
    else child)
  elites ++ offspring

/-- Median of a fitness list as ranked (descending) by the optimizer: middle
element for odd length, mean of the two middle elements for even length. -/
def medianFitness (fits : List ℚ) : ℚ :=
  let n := fits.length
  if n % 2 = 1 then fits.getD (n / 2) 0
  else (fits.getD (n / 2 - 1) 0 + fits.getD (n / 2) 0) / 2

/-! ## Concrete inputs used by counterexamples and witnesses -/

/-- A flat-market candle: price 100, volume 1. -/
def flatCandle : Candle := ⟨100, 1⟩

/-- 201 flat candles — the shortest history the simulator iterates on. -/
def flatData : List Candle := List.replicate 201 flatCandle

/-- Backtest strategy configuration used by the flat-run counterexample: a
low buy threshold (30) so the flat market triggers a BUY, and a fixed
investment amount of 100000. -/
def rcFlat : RunConfig :=
  { scfg := { buyThreshold := 30 }, investmentAmount := some 100000 }

/-- An arbitrary ambient environment. -/
def envZero : Env := ⟨fun _ => 0, 0⟩

/-- The analysis snapshot `comprehensiveAnalysis` produces on a flat
200-candle window: RSI 100 (no losses), zero MACD, bands collapsed onto the
price, no crossover, neutral volume, one sell signal. -/
def flatAnalysis : Analysis :=
  { rsi := 100
    macd := ⟨0, 0, 0⟩
    bollingerBands := ⟨100, 100, 100, 100⟩
    crossover := .nocross
    volume := ⟨false, 1⟩
    signals := ⟨0, 1, .sell⟩ }

/-! ## Claim theorems -/

/-- **C2** — For every close of an open position by `TradingStrategy` (full
close via `closePosition` with no caller-supplied net-profit override, and
partial close via `recordPartialSell` with `0 < soldAmount <` the position's
amount), the recorded net profit equals `grossProfit − (entryFee + exitFee)`
exactly, with a 0.0005 fee rate per side, and the partial close charges only
the sold amount's prorated share of the entry fee
(`entryPrice × soldAmount × 0.0005`), not the full original entry fee; in
particular, opening at price 100 with amount 1 and closing at 110 yields
`grossProfit 10`, `fee 0.105`, `netProfit 9.895`. -/
theorem strategy_net_profit (st : StrategyState) (p : Position)
    (hpos : st.currentPosition = some p) (price soldAmount : ℚ) (reason : Reason)
    (h1 : 0 < soldAmount) (h2 : soldAmount < p.amount) :
    (∃ r, (closePosition st price reason Option.none).1 = some r
      ∧ r.profit = (price - p.entryPrice) * p.amount
          - (p.entryPrice * p.amount * FEE_RATE + price * p.amount * FEE_RATE)
      ∧ r.totalFee = p.entryPrice * p.amount * FEE_RATE + price * p.amount * FEE_RATE
      ∧ (closePosition st price reason Option.none).2.currentPosition = Option.none)
    ∧ (∃ r, (recordPartialSell st price soldAmount reason).1 = some r
      ∧ r.profit = (price - p.entryPrice) * soldAmount
          - (p.entryPrice * soldAmount * FEE_RATE + price * soldAmount * FEE_RATE)
      ∧ r.totalFee = p.entryPrice * soldAmount * FEE_RATE + price * soldAmount * FEE_RATE
      ∧ (recordPartialSell st price soldAmount reason).2.currentPosition
          = some ⟨p.entryPrice, p.amount - soldAmount⟩)
    ∧ (∃ r, (closePosition ⟨some ⟨100, 1⟩, []⟩ 110 reason Option.none).1 = some r
      ∧ r.grossProfit = 10 ∧ r.totalFee = 21/200 ∧ r.profit = 1979/200) := by
  obtain ⟨cp, hist⟩ := st
  simp only [StrategyState.currentPosition] at hpos
  subst hpos
  refine ⟨⟨_, rfl, rfl, rfl, rfl⟩, ?_, ?_⟩
  · simp only [recordPartialSell, if_neg (not_le.2 h1), if_neg (not_le.2 h2)]
    exact ⟨_, rfl, rfl, rfl, trivial⟩
  · exact ⟨_, rfl, by norm_num, by norm_num [FEE_RATE], by norm_num [FEE_RATE]⟩

/-- Witness for C2 at a concrete state: position entry 100, amount 2,
partial sell of 1 at price 110. -/
theorem strategy_net_profit_witness :
    (∃ r, (closePosition ⟨some ⟨100, 2⟩, []⟩ 110 Reason.sellSignal Option.none).1 = some r
      ∧ r.profit = (110 - 100) * 2 - (100 * 2 * FEE_RATE + 110 * 2 * FEE_RATE)
      ∧ r.totalFee = 100 * 2 * FEE_RATE + 110 * 2 * FEE_RATE
      ∧ (closePosition ⟨some ⟨100, 2⟩, []⟩ 110 Reason.sellSignal Option.none).2.currentPosition
          = Option.none)
    ∧ (∃ r, (recordPartialSell ⟨some ⟨100, 2⟩, []⟩ 110 1 Reason.sellSignal).1 = some r
      ∧ r.profit = (110 - 100) * 1 - (100 * 1 * FEE_RATE + 110 * 1 * FEE_RATE)
      ∧ r.totalFee = 100 * 1 * FEE_RATE + 110 * 1 * FEE_RATE
      ∧ (recordPartialSell ⟨some ⟨100, 2⟩, []⟩ 110 1 Reason.sellSignal).2.currentPosition
          = some ⟨100, 2 - 1⟩)
    ∧ (∃ r, (closePosition ⟨some ⟨100, 1⟩, []⟩ 110 Reason.sellSignal Option.none).1 = some r
      ∧ r.grossProfit = 10 ∧ r.totalFee = 21/200 ∧ r.profit = 1979/200) :=
  strategy_net_profit ⟨some ⟨100, 2⟩, []⟩ ⟨100, 2⟩ rfl 110 1 Reason.sellSignal
    (by norm_num) (by norm_num)

/-- **C9** — Two runs of `BacktestEngine.run` on the same historical candle
array with the same strategy configuration and the same engine configuration
produce identical results: the replay path reads neither the random stream
nor the clock of the ambient environment. -/
theorem backtest_deterministic (e1 e2 : Env) (sq : ℚ → ℚ) (cfg : BtConfig)
    (rc : RunConfig) (data : List Candle) :
    runBacktest e1 sq cfg rc data = runBacktest e2 sq cfg rc data := rfl

/-- **C10** — When the technical-analysis argument or the sentiment argument
of `makeDecision` is null, the result is HOLD with confidence 0 and the
data-insufficiency reason, and the strategy's position and trade history are
left unchanged. -/
theorem makeDecision_null_inputs (st : StrategyState) (cfg : StrategyConfig)
    (ta : Analysis) (ns : Sentiment) (price : ℚ) :
    strategyMakeDecision st cfg Option.none (some ns) price
        = (⟨Action.hold, Reason.dataInsufficient, 0, Option.none, Option.none⟩, st)
    ∧ strategyMakeDecision st cfg (some ta) Option.none price
        = (⟨Action.hold, Reason.dataInsufficient, 0, Option.none, Option.none⟩, st)
    ∧ strategyMakeDecision st cfg Option.none Option.none price
        = (⟨Action.hold, Reason.dataInsufficient, 0, Option.none, Option.none⟩, st) :=
  ⟨rfl, rfl, rfl⟩

/-- **C7 counterexample** — `checkCrossover` and `analyzeVolume` do *not*
fail with a sized-input error on insufficient candles: on an empty candle
list they return the values `'none'` and
`{isHighVolume: false, volumeRatio: 0}`. -/
theorem c7_counterexample :
    checkCrossover [] 5 20 = .ok CrossoverState.nocross
    ∧ isErr (checkCrossover [] 5 20) = false
    ∧ analyzeVolume [] 20 = ⟨false, 0⟩ :=
  ⟨rfl, rfl, rfl⟩

/-- **C7 (amended)** — RSI, MACD, Bollinger Bands and the moving average
fail with a sized-input error when given fewer candles than their documented
minimum; the crossover check instead returns `'none'` and the volume
analysis returns its no-signal default. -/
theorem indicator_insufficient_data :
    (∀ (candles : List Candle) (period : ℕ), candles.length < period + 1 →
      calculateRSI candles period = .error (.insufficient (period + 1)))
    ∧ (∀ (candles : List Candle) (f s g : ℕ), candles.length < s + g →
      calculateMACD candles f s g = .error (.insufficient (s + g)))
    ∧ (∀ (sq : ℚ → ℚ) (candles : List Candle) (p : ℕ) (k : ℚ), candles.length < p →
      calculateBollingerBands sq candles p k = .error (.insufficient p))
    ∧ (∀ (candles : List Candle) (p : ℕ), candles.length < p →
      calculateMA candles p = .error (.insufficient p))
    ∧ (∀ (candles : List Candle) (s l : ℕ), candles.length < l + 1 →
      checkCrossover candles s l = .ok CrossoverState.nocross)
    ∧ (∀ (candles : List Candle) (p : ℕ), candles.length < p →
      analyzeVolume candles p = ⟨false, 0⟩) := by
  refine ⟨?_, ?_, ?_, ?_, ?_, ?_⟩ <;> intros <;>
    first
      | (rw [calculateRSI, if_pos]; assumption)
      | (rw [calculateMACD, if_pos]; assumption)
      | (rw [calculateBollingerBands, if_pos]; assumption)
      | (rw [calculateMA, if_pos]; assumption)
      | (rw [checkCrossover, if_pos]; assumption)
      | (rw [analyzeVolume, if_pos]; assumption)

/-- Witness for C7 (amended), at empty candle lists. -/
theorem indicator_insufficient_data_witness :
    calculateRSI [] 14 = .error (.insufficient 15)
    ∧ calculateMACD [] 12 26 9 = .error (.insufficient 35)
    ∧ calculateBollingerBands ratSqrt [] 20 2 = .error (.insufficient 20)
    ∧ calculateMA [] 5 = .error (.insufficient 5)
    ∧ checkCrossover [] 5 20 = .ok CrossoverState.nocross
    ∧ analyzeVolume [] 20 = ⟨false, 0⟩ :=
  ⟨indicator_insufficient_data.1 [] 14 (by norm_num),
   indicator_insufficient_data.2.1 [] 12 26 9 (by norm_num),
   indicator_insufficient_data.2.2.1 ratSqrt [] 20 2 (by norm_num),
   indicator_insufficient_data.2.2.2.1 [] 5 (by norm_num),
   indicator_insufficient_data.2.2.2.2.1 [] 5 20 (by norm_num),
   indicator_insufficient_data.2.2.2.2.2 [] 20 (by norm_num)⟩

/-- **C6** — `comprehensiveAnalysis` returns null whenever RSI, MACD or the
Bollinger computation throws for insufficient data, and the backtest loop
body skips the step entirely (no decision, no trade, no equity sample) when
it receives null. -/
theorem comprehensive_null_and_skip :
    (∀ (sq : ℚ → ℚ) (candles : List Candle) (cfg : AnalysisConfig),
      isErr (calculateRSI candles cfg.rsiPeriod) = true
        ∨ isErr (calculateMACD candles cfg.macdFast cfg.macdSlow cfg.macdSignal) = true
        ∨ isErr (calculateBollingerBands sq candles cfg.bbPeriod cfg.bbStdDev) = true →
      comprehensiveAnalysis sq candles cfg = Option.none)
    ∧ (∀ (cfg : BtConfig) (rc : RunConfig) (price : ℚ) (time : ℕ) (st : BtState),
      btStepCore cfg rc price time Option.none st = st) := by
  constructor
  · intro sq candles cfg h
    unfold comprehensiveAnalysis
    rcases h with h | h | h
    · rcases he : calculateRSI candles cfg.rsiPeriod with e | v
      · rfl
      · rw [he] at h; simp [isErr] at h
    · rcases he : calculateMACD candles cfg.macdFast cfg.macdSlow cfg.macdSignal with e | v
      · rcases calculateRSI candles cfg.rsiPeriod with _ | _ <;> rfl
      · rw [he] at h; simp [isErr] at h
    · rcases he : calculateBollingerBands sq candles cfg.bbPeriod cfg.bbStdDev with e | v
      · rcases calculateRSI candles cfg.rsiPeriod with _ | _ <;>
          rcases calculateMACD candles cfg.macdFast cfg.macdSlow cfg.macdSignal with _ | _ <;>
          rfl
      · rw [he] at h; simp [isErr] at h
  · intro cfg rc price time st
    rfl

/-- Witness for C6: an empty candle list makes RSI throw, so the analysis is
null and the step at index 0 leaves the state untouched. -/
theorem comprehensive_null_and_skip_witness :
    comprehensiveAnalysis ratSqrt [] {} = Option.none
    ∧ btStepCore {} {} 100 0 Option.none ⟨1000000, Option.none, [], []⟩
        = ⟨1000000, Option.none, [], []⟩ :=
  ⟨comprehensive_null_and_skip.1 ratSqrt [] {} (Or.inl (by rfl)),
   comprehensive_null_and_skip.2 {} {} 100 0 ⟨1000000, Option.none, [], []⟩⟩

/-- **C3** — For every call to `makeDecision` with non-null inputs, the
returned action is BUY when `totalScore ≥ buyThreshold`; SELL when
`totalScore ≤ 100 − sellThreshold` and buy-only mode is off (HOLD with the
buy-only-suppression reason when it is on); otherwise HOLD — except that
when a position is open and `currentPrice` has breached the stop-loss or
take-profit level relative to the entry price, the action is forced to SELL
with confidence 1.0 and the overriding reason, even in buy-only mode. -/
theorem makeDecision_action_spec (cfg : StrategyConfig) (pos : Option Position)
    (ta : Analysis) (ns : Sentiment) (price : ℚ) :
    (makeDecision cfg pos (some ta) (some ns) price).action
      = (if (checkPosition cfg pos price).shouldClose then Action.sell
         else if cfg.buyThreshold ≤ calculateTechnicalScore ta * cfg.technicalWeight
                  + calculateNewsScore ns * cfg.newsWeight then Action.buy
         else if calculateTechnicalScore ta * cfg.technicalWeight
                  + calculateNewsScore ns * cfg.newsWeight ≤ 100 - cfg.sellThreshold then
           (if cfg.buyOnly then Action.hold else Action.sell)
         else Action.hold)
    ∧ ((checkPosition cfg pos price).shouldClose = true →
        (makeDecision cfg pos (some ta) (some ns) price).confidence = 1
        ∧ (makeDecision cfg pos (some ta) (some ns) price).reason
            = (checkPosition cfg pos price).reason)
    ∧ ((checkPosition cfg pos price).shouldClose = false → cfg.buyOnly = true →
        calculateTechnicalScore ta * cfg.technicalWeight
          + calculateNewsScore ns * cfg.newsWeight < cfg.buyThreshold →
        calculateTechnicalScore ta * cfg.technicalWeight
          + calculateNewsScore ns * cfg.newsWeight ≤ 100 - cfg.sellThreshold →
        (makeDecision cfg pos (some ta) (some ns) price).action = Action.hold
        ∧ (makeDecision cfg pos (some ta) (some ns) price).reason
            = Reason.buyOnlySuppressed) := by
  refine ⟨?_, ?_, ?_⟩
  · cases pos with
    | none =>
      simp only [makeDecision, checkPosition, ge_iff_le, Bool.false_eq_true, if_false]
      split_ifs <;> rfl
    | some p =>
      simp only [makeDecision, ge_iff_le]
      rcases hpc : (checkPosition cfg (some p) price).shouldClose with _ | _
      · simp only [hpc, Bool.false_eq_true, if_false]
        split_ifs <;> rfl
      · simp only [hpc, if_true]
  · intro h
    cases pos with
    | none => simp [checkPosition] at h
    | some p =>
      constructor
      · simp only [makeDecision, h, if_true, Decision.confidence]
        norm_num [toFixed2]
      · simp only [makeDecision, h, if_true]
  · intro h hbo hlt hle
    cases pos with
    | none =>
      simp only [makeDecision, checkPosition, ge_iff_le, Bool.false_eq_true, if_false,
        if_neg (not_le.2 hlt), if_pos hle, hbo, if_true]
      exact ⟨by trivial, by trivial⟩
    | some p =>
      simp only [makeDecision, ge_iff_le, h, Bool.false_eq_true, if_false,
        if_neg (not_le.2 hlt), if_pos hle, hbo, if_true]
      exact ⟨by trivial, by trivial⟩

/-- Witness for C3 at a concrete input: open position at entry 100, current
price 80 (a 20% drop breaching the default 5% stop-loss). -/
theorem makeDecision_action_spec_witness :
    ((makeDecision {} (some ⟨100, 1⟩) (some flatAnalysis) (some mockNewsSentiment) 80).action
      = (if (checkPosition {} (some ⟨100, 1⟩) 80).shouldClose then Action.sell
         else if StrategyConfig.buyThreshold {}
                  ≤ calculateTechnicalScore flatAnalysis * StrategyConfig.technicalWeight {}
                  + calculateNewsScore mockNewsSentiment * StrategyConfig.newsWeight {} then Action.buy
         else if calculateTechnicalScore flatAnalysis * StrategyConfig.technicalWeight {}
                  + calculateNewsScore mockNewsSentiment * StrategyConfig.newsWeight {}
                  ≤ 100 - StrategyConfig.sellThreshold {} then
           (if StrategyConfig.buyOnly {} then Action.hold else Action.sell)
         else Action.hold))
    ∧ ((checkPosition {} (some ⟨100, 1⟩) 80).shouldClose = true →
        (makeDecision {} (some ⟨100, 1⟩) (some flatAnalysis) (some mockNewsSentiment) 80).confidence = 1
        ∧ (makeDecision {} (some ⟨100, 1⟩) (some flatAnalysis) (some mockNewsSentiment) 80).reason
            = (checkPosition {} (some ⟨100, 1⟩) 80).reason)
    ∧ ((checkPosition {} (some ⟨100, 1⟩) 80).shouldClose = false → StrategyConfig.buyOnly {} = true →
        calculateTechnicalScore flatAnalysis * StrategyConfig.technicalWeight {}
          + calculateNewsScore mockNewsSentiment * StrategyConfig.newsWeight {}
          < StrategyConfig.buyThreshold {} →
        calculateTechnicalScore flatAnalysis * StrategyConfig.technicalWeight {}
          + calculateNewsScore mockNewsSentiment * StrategyConfig.newsWeight {}
          ≤ 100 - StrategyConfig.sellThreshold {} →
        (makeDecision {} (some ⟨100, 1⟩) (some flatAnalysis) (some mockNewsSentiment) 80).action
          = Action.hold
        ∧ (makeDecision {} (some ⟨100, 1⟩) (some flatAnalysis) (some mockNewsSentiment) 80).reason
            = Reason.buyOnlySuppressed) :=
  makeDecision_action_spec {} (some ⟨100, 1⟩) flatAnalysis mockNewsSentiment 80

/-- A fold preserves any invariant its step preserves. -/
theorem foldl_preserve {α β : Type} (P : α → Prop) (f : α → β → α) (l : List β)
    (init : α) (h0 : P init) (hstep : ∀ a b, P a → P (f a b)) :
    P (l.foldl f init) := by
  induction l generalizing init with
  | nil => exact h0
  | cons b t ih => exact ih _ (hstep _ _ h0)

theorem gainOf_nonneg (d : ℚ) : 0 ≤ gainOf d := by
  unfold gainOf; split_ifs with h
  · exact h
  · exact le_refl 0

theorem lossOf_nonneg (d : ℚ) : 0 ≤ lossOf d := by
  unfold lossOf; split_ifs with h
  · exact le_refl 0
  · linarith [not_le.1 h]

theorem wilder_nonneg (period : ℕ) (hper : 0 < period) (avg cur : ℚ)
    (ha : 0 ≤ avg) (hc : 0 ≤ cur) : 0 ≤ wilder period avg cur := by
  unfold wilder
  have h1 : (1 : ℚ) ≤ (period : ℚ) := by exact_mod_cast hper
  have : (0 : ℚ) ≤ avg * ((period : ℚ) - 1) := mul_nonneg ha (by linarith)
  exact div_nonneg (by linarith) (by positivity)

theorem rsiAvgs_nonneg (period : ℕ) (hper : 0 < period) (deltas : List ℚ) :
    0 ≤ (rsiAvgs period deltas).1 ∧ 0 ≤ (rsiAvgs period deltas).2 := by
  unfold rsiAvgs
  apply foldl_preserve (fun p : ℚ × ℚ => 0 ≤ p.1 ∧ 0 ≤ p.2)
  · constructor <;>
      exact div_nonneg
        (List.sum_nonneg (by
          intro x hx
          obtain ⟨d, _, rfl⟩ := List.mem_map.1 hx
          first
            | exact gainOf_nonneg d
            | exact lossOf_nonneg d))
        (by positivity)
  · rintro ⟨g, l⟩ d ⟨hg, hl⟩
    exact ⟨wilder_nonneg period hper g (gainOf d) hg (gainOf_nonneg d),
           wilder_nonneg period hper l (lossOf d) hl (lossOf_nonneg d)⟩

/-- **C4** — For every candle array with at least `period+1` candles (and a
positive period), `calculateRSI` returns a value in [0,100]; and for every
candle array with at least `period` candles, a positive period, and a
non-negative std-dev multiplier, `calculateBollingerBands` returns bands
with `lower ≤ middle ≤ upper` (for any model of `Math.sqrt` that is
non-negative on non-negative inputs). -/
theorem indicator_bounds :
    (∀ (candles : List Candle) (period : ℕ), 0 < period →
      period + 1 ≤ candles.length →
      ∃ r, calculateRSI candles period = .ok r ∧ 0 ≤ r ∧ r ≤ 100)
    ∧ (∀ (sq : ℚ → ℚ), (∀ q, 0 ≤ q → 0 ≤ sq q) →
      ∀ (candles : List Candle) (period : ℕ) (k : ℚ), 0 < period →
      period ≤ candles.length → 0 ≤ k →
      ∃ b, calculateBollingerBands sq candles period k = .ok b
        ∧ b.lower ≤ b.middle ∧ b.middle ≤ b.upper) := by
  constructor
  · intro candles period hper hlen
    rw [calculateRSI, if_neg (by omega)]
    obtain ⟨hg, hl⟩ := rsiAvgs_nonneg period hper (rsiDeltas candles)
    unfold rsiOf
    split_ifs with hz
    · exact ⟨100, rfl, by norm_num, by norm_num⟩
    · refine ⟨_, rfl, ?_, ?_⟩
      · have hlpos : 0 < (rsiAvgs period (rsiDeltas candles)).2 := lt_of_le_of_ne hl (Ne.symm hz)
        have hrs : 0 ≤ (rsiAvgs period (rsiDeltas candles)).1 / (rsiAvgs period (rsiDeltas candles)).2 :=
          div_nonneg hg hl
        have : 100 / (1 + (rsiAvgs period (rsiDeltas candles)).1 / (rsiAvgs period (rsiDeltas candles)).2) ≤ 100 :=
          div_le_self (by norm_num) (by linarith)
        linarith
      · have hrs : 0 ≤ (rsiAvgs period (rsiDeltas candles)).1 / (rsiAvgs period (rsiDeltas candles)).2 :=
          div_nonneg hg hl
        have : 0 < 100 / (1 + (rsiAvgs period (rsiDeltas candles)).1 / (rsiAvgs period (rsiDeltas candles)).2) :=
          div_pos (by norm_num) (by linarith)
        linarith
  · intro sq hsq candles period k hper hlen hk
    rw [calculateBollingerBands, if_neg (not_lt.2 hlen)]
    refine ⟨_, rfl, ?_, ?_⟩
    all_goals
      have hvar : (0 : ℚ) ≤
          (((candles.take period).map (·.trade_price)).map
            (fun p => (p - ((candles.take period).map (·.trade_price)).sum / (period : ℚ)) ^ 2)).sum
            / (period : ℚ) := by
        refine div_nonneg (List.sum_nonneg ?_) (by positivity)
        intro x hx
        obtain ⟨p, _, rfl⟩ := List.mem_map.1 hx
        positivity
      have hsd : 0 ≤ sq ((((candles.take period).map (·.trade_price)).map
          (fun p => (p - ((candles.take period).map (·.trade_price)).sum / (period : ℚ)) ^ 2)).sum
          / (period : ℚ)) * k :=
        mul_nonneg (hsq _ hvar) hk
    · simp only [BBVals.lower, BBVals.middle]
      linarith
    · simp only [BBVals.middle, BBVals.upper]
      linarith

/-- Witness for C4: RSI on 15 flat candles with period 14, Bollinger bands
on 2 flat candles with period 2 and multiplier 2 under the `ratSqrt`
model. -/
theorem indicator_bounds_witness :
    (∃ r, calculateRSI (List.replicate 15 flatCandle) 14 = .ok r ∧ 0 ≤ r ∧ r ≤ 100)
    ∧ (∃ b, calculateBollingerBands ratSqrt (List.replicate 2 flatCandle) 2 2 = .ok b
        ∧ b.lower ≤ b.middle ∧ b.middle ≤ b.upper) :=
  ⟨indicator_bounds.1 (List.replicate 15 flatCandle) 14 (by norm_num) (by simp),
   indicator_bounds.2 ratSqrt ratSqrt_nonneg (List.replicate 2 flatCandle) 2 2
     (by norm_num) (by simp) (by norm_num)⟩

/-- **C5 counterexample** — The genetic optimizer's parameter domain has
exactly 20 named parameters, not 19 as claimed. -/
theorem c5_counterexample :
    parameterRanges.length = 20 ∧ parameterRanges.length ≠ 19 := by
  constructor
  · rfl
  · decide

/-- **C5 (amended)** — The parameter domain is a mapping of exactly **20**
named numeric parameters, each with a declared [min,max,step] range, and
crossover is single-point over this ordered list of parameter names at a
random cut index, taking the prefix of parameters from parent 1 and the
suffix from parent 2. -/
theorem optimizer_domain_crossover :
    parameterRanges.length = 20
    ∧ paramNames.length = 20
    ∧ (∀ (cut : ℕ) (p1 p2 : Individual),
        p1.length = paramNames.length → p2.length = paramNames.length →
        crossover cut p1 p2 = p1.take cut ++ p2.drop cut) := by
  refine ⟨rfl, rfl, ?_⟩
  intro cut p1 p2 h1 h2
  unfold crossover
  apply List.ext_getElem
  · simp only [List.length_map, List.length_range, List.length_append,
      List.length_take, List.length_drop, h1, h2]
    omega
  · intro i hi1 hi2
    simp only [List.length_map, List.length_range] at hi1
    simp only [List.getElem_map, List.getElem_range]
    by_cases hc : i < cut
    · rw [if_pos hc, List.getElem_append_left (by simp [h1]; omega),
        List.getElem_take, List.getD_eq_getElem _ _ (by omega)]
    · rw [if_neg hc, List.getElem_append_right (by simp [h1]; omega)]
      rw [List.getElem_drop]
      rw [List.getD_eq_getElem _ _ (by omega)]
      congr 1
      simp [h1]
      omega

/-- Witness for C5 (amended): a cut at index 3 of two constant parents of
length 20. -/
theorem optimizer_domain_crossover_witness :
    crossover 3 (List.replicate 20 (1 : ℚ)) (List.replicate 20 (2 : ℚ))
      = (List.replicate 20 (1 : ℚ)).take 3 ++ (List.replicate 20 (2 : ℚ)).drop 3 :=
  optimizer_domain_crossover.2.2 3 (List.replicate 20 1) (List.replicate 20 2)
    (by decide) (by decide)

/-- **C8 counterexample** — With population size 3 and `eliteSize` 3, a
ranked (descending) generation with fitnesses 3, 3, 0 carries the
bottom-ranked individual into the next generation even though its fitness 0
is below the generation's median fitness 3. -/
theorem c8_counterexample :
    List.Sorted (fun a b : Individual × ℚ => b.2 ≤ a.2) [([1], 3), ([2], 3), ([3], 0)]
    ∧ createNextGeneration ⟨3, 10, 1/5, 7/10, 3⟩ [([1], 3), ([2], 3), ([3], 0)]
        (fun _ => default) = [[1], [2], [3]]
    ∧ ([3], (0 : ℚ)) ∈ ([([1], (3 : ℚ)), ([2], 3), ([3], 0)]).take 3
    ∧ medianFitness (([([1], (3 : ℚ)), ([2], 3), ([3], 0)]).map Prod.snd) = 3
    ∧ ¬ medianFitness (([([1], (3 : ℚ)), ([2], 3), ([3], 0)]).map Prod.snd) ≤ 0 := by
  refine ⟨by decide, by decide, by decide, by decide, by decide⟩

/-- **C8 (amended)** — For every generation step, the `eliteSize`
individuals carried unchanged into generation N+1 are the top-ranked
individuals of generation N, and — provided `eliteSize` does not exceed
half the population (rounded up), as with the default `eliteSize = 2`,
`populationSize = 20` — each of them has fitness ≥ the median fitness of
generation N's population. -/
theorem elitism_invariant (cfg : GAConfig) (ranked : List (Individual × ℚ))
    (plans : ℕ → OffspringPlan)
    (hsorted : List.Sorted (fun a b : Individual × ℚ => b.2 ≤ a.2) ranked)
    (hk : cfg.eliteSize ≤ ranked.length)
    (hmed : 2 * cfg.eliteSize ≤ ranked.length + 1) :
    (createNextGeneration cfg ranked plans).take cfg.eliteSize
      = (ranked.take cfg.eliteSize).map Prod.fst
    ∧ ∀ pr ∈ ranked.take cfg.eliteSize, medianFitness (ranked.map Prod.snd) ≤ pr.2 := by
  have hlen : ((ranked.take cfg.eliteSize).map Prod.fst).length = cfg.eliteSize := by
    simp [hk]
  constructor
  · unfold createNextGeneration
    rw [List.take_append_of_le_length (by rw [hlen]), List.take_of_length_le (by rw [hlen])]
  · intro pr hpr
    obtain ⟨i, hi, hget⟩ := List.mem_iff_getElem.1 hpr
    have hi' : i < cfg.eliteSize := by
      simpa using (List.length_take cfg.eliteSize ranked ▸ hi :
        i < (ranked.take cfg.eliteSize).length).trans_le (by simp)
    have hilen : i < ranked.length := lt_of_lt_of_le hi' hk
    have hpr2 : pr = ranked[i] := by
      rw [← hget, List.getElem_take]
    have hpair := List.pairwise_iff_getElem.1 hsorted
    have key : ∀ (j : ℕ) (hj : j < ranked.length), i ≤ j → ranked[j].2 ≤ ranked[i].2 := by
      intro j hj hij
      rcases eq_or_lt_of_le hij with rfl | h
      · exact le_refl _
      · exact hpair i j hilen hj h
    simp only [medianFitness]
    have hnl : (ranked.map Prod.snd).length = ranked.length := by simp
    split_ifs with hpar
    · rw [List.getD_eq_getElem _ _ (by omega), List.getElem_map, hpr2]
      exact key _ (by omega) (by omega)
    · rw [List.getD_eq_getElem _ _ (by omega), List.getD_eq_getElem _ _ (by omega),
        List.getElem_map, List.getElem_map, hpr2]
      have k1 := key ((ranked.map Prod.snd).length / 2 - 1) (by omega) (by omega)
      have k2 := key ((ranked.map Prod.snd).length / 2) (by omega) (by omega)
      linarith

/-- Witness for C8 (amended): a sorted two-individual generation with
`eliteSize = 1`. -/
theorem elitism_invariant_witness :
    (createNextGeneration ⟨2, 10, 1/5, 7/10, 1⟩ [([1], 5), ([2], 3)]
        (fun _ => default)).take 1
      = (([([1], (5 : ℚ)), ([2], 3)]).take 1).map Prod.fst
    ∧ ∀ pr ∈ ([([1], (5 : ℚ)), ([2], 3)]).take 1,
        medianFitness (([([1], (5 : ℚ)), ([2], 3)]).map Prod.snd) ≤ pr.2 := by
  simpa using elitism_invariant ⟨2, 10, 1/5, 7/10, 1⟩ [([1], 5), ([2], 3)]
    (fun _ => default) (by decide) (by decide) (by decide)

theorem netSum_append (ts : List BtTrade) (t : BtTrade) :
    netSum (ts ++ [t]) = netSum ts + tradeNet t := by
  simp [netSum]

theorem feeBase_append (ts : List BtTrade) (t : BtTrade) :
    feeBase (ts ++ [t]) = feeBase ts + tradeFeeBase t := by
  simp [feeBase]

/-- Closing a position credits the proceeds minus the fee and records the
gross profit, preserving the balance invariant. -/
theorem balInv_engineClose (cfg : BtConfig) (st : BtState) (p : Position)
    (sellPrice : ℚ) (reason : Reason) (time : ℕ)
    (hpos : st.position = some p) (h : BalInv cfg st) :
    BalInv cfg (engineClose cfg st p sellPrice reason time) := by
  unfold BalInv engineClose at *
  rw [hpos] at h
  simp only [posVal, netSum_append, feeBase_append, tradeNet, tradeFeeBase] at *
  ring_nf
  ring_nf at h
  linarith

/-- Opening a position moves `investAmount − fee` of value into the
position, preserving the balance invariant (the fill price must be nonzero
for `amount × entryPrice` to recover the invested value in `ℚ`). -/
theorem balInv_engineOpen (cfg : BtConfig) (st : BtState) (investAmount price : ℚ)
    (reason : Reason) (time : ℕ)
    (hpos : st.position = Option.none)
    (hb : price * (1 + cfg.slippage) ≠ 0) (h : BalInv cfg st) :
    BalInv cfg (engineOpen cfg st investAmount price reason time) := by
  unfold BalInv engineOpen applySlippage at *
  rw [hpos] at h
  simp only [posVal, netSum_append, feeBase_append, tradeNet, tradeFeeBase, if_true] at *
  have hcancel : price * (1 + cfg.slippage)
      * ((investAmount - investAmount * cfg.tradingFee) / (price * (1 + cfg.slippage)))
      = investAmount - investAmount * cfg.tradingFee := by
    rw [mul_comm, div_mul_cancel₀ _ hb]
  rw [hcancel]
  linarith

theorem balInv_stage1 (cfg : BtConfig) (rc : RunConfig) (price : ℚ) (time : ℕ)
    (st : BtState) (h : BalInv cfg st) :
    BalInv cfg (btStage1 cfg rc price time st) := by
  unfold btStage1
  rcases hp : st.position with _ | p
  · exact h
  · show BalInv cfg (if (checkPosition rc.scfg (some p) price).shouldClose then
      engineClose cfg st p (applySlippage cfg price false)
        (checkPosition rc.scfg (some p) price).reason time else st)
    split_ifs
    · exact balInv_engineClose cfg st p _ _ _ hp h
    · exact h

theorem balInv_stage2 (cfg : BtConfig) (rc : RunConfig) (decision : Decision)
    (price : ℚ) (time : ℕ) (st1 : BtState)
    (hb : price * (1 + cfg.slippage) ≠ 0) (h : BalInv cfg st1) :
    BalInv cfg (btStage2 cfg rc decision price time st1) := by
  unfold btStage2
  split_ifs with hg _hi
  · exact balInv_engineOpen cfg st1 _ price _ time hg.2.1 hb h
  · exact h
  · exact h

theorem balInv_stage3 (cfg : BtConfig) (decision : Decision) (price : ℚ)
    (time : ℕ) (st2 : BtState) (h : BalInv cfg st2) :
    BalInv cfg (btStage3 cfg decision price time st2) := by
  unfold btStage3
  rcases hp : st2.position with _ | p
  · exact h
  · show BalInv cfg (if decision.action = Action.sell then
      engineClose cfg st2 p (applySlippage cfg price false) decision.reason time else st2)
    split_ifs
    · exact balInv_engineClose cfg st2 p _ _ _ hp h
    · exact h

/-- The equity sample only touches the history, not the invariant. -/
theorem balInv_recordEquity (cfg : BtConfig) (price : ℚ) (time : ℕ)
    (st3 : BtState) (h : BalInv cfg st3) :
    BalInv cfg (btRecordEquity price time st3) := h

/-- One loop step preserves the balance invariant. -/
theorem balInv_stepCore (cfg : BtConfig) (rc : RunConfig) (price : ℚ) (time : ℕ)
    (ta : Option Analysis) (st : BtState)
    (hb : price * (1 + cfg.slippage) ≠ 0) (h : BalInv cfg st) :
    BalInv cfg (btStepCore cfg rc price time ta st) := by
  cases ta with
  | none => exact h
  | some a =>
    exact balInv_recordEquity cfg price time _
      (balInv_stage3 cfg _ price time _
        (balInv_stage2 cfg rc _ price time _ hb
          (balInv_stage1 cfg rc price time st h)))

theorem balInv_btStep (sq : ℚ → ℚ) (cfg : BtConfig) (rc : RunConfig)
    (data : List Candle) (hp : ∀ c ∈ data, 0 < c.trade_price)
    (hs : 0 ≤ cfg.slippage) (st : BtState) (i : ℕ) (hi : i < data.length)
    (h : BalInv cfg st) : BalInv cfg (btStep sq cfg rc data st i) := by
  unfold btStep
  apply balInv_stepCore
  · have hmem : data.getD i default ∈ data := by
      rw [List.getD_eq_getElem _ _ hi]
      exact List.getElem_mem _
    have hpp := hp _ hmem
    have hpos : 0 < (data.getD i default).trade_price * (1 + cfg.slippage) :=
      mul_pos hpp (by linarith)
    exact ne_of_gt hpos
  · exact h

theorem balInv_loop (sq : ℚ → ℚ) (cfg : BtConfig) (rc : RunConfig)
    (data : List Candle) (hp : ∀ c ∈ data, 0 < c.trade_price)
    (hs : 0 ≤ cfg.slippage) (idxs : List ℕ)
    (hidx : ∀ i ∈ idxs, i < data.length) (st : BtState) (h : BalInv cfg st) :
    BalInv cfg (idxs.foldl (btStep sq cfg rc data) st) := by
  induction idxs generalizing st with
  | nil => exact h
  | cons i t ih =>
    simp only [List.foldl_cons]
    exact ih (fun j hj => hidx j (List.mem_cons_of_mem _ hj)) _
      (balInv_btStep sq cfg rc data hp hs st i (hidx i (List.mem_cons_self _ _)) h)

/-- The forced end-of-data close always leaves no position open. -/
theorem btForceClose_position (cfg : BtConfig) (data : List Candle)
    (st : BtState) : (btForceClose cfg data st).position = Option.none := by
  unfold btForceClose
  rcases hp : st.position with _ | p
  · exact hp
  · rfl

theorem balInv_btForceClose (cfg : BtConfig) (data : List Candle) (st : BtState)
    (h : BalInv cfg st) : BalInv cfg (btForceClose cfg data st) := by
  unfold btForceClose
  rcases hp : st.position with _ | p
  · exact h
  · exact balInv_engineClose cfg st p _ _ _ hp h

/-- `calculateResults` reports exactly the balance it is given. -/
theorem calculateResults_finalBalance (sq : ℚ → ℚ) (cfg : BtConfig)
    (rc : RunConfig) (ts : List BtTrade) (b : ℚ) (hist : List EquityPoint) :
    (calculateResults sq cfg rc ts b hist).finalBalance = b := by
  simp only [calculateResults]
  split_ifs <;> rfl

/-- `calculateResults` reports the CLOSE entries of the trade log. -/
theorem calculateResults_trades (sq : ℚ → ℚ) (cfg : BtConfig)
    (rc : RunConfig) (ts : List BtTrade) (b : ℚ) (hist : List EquityPoint) :
    (calculateResults sq cfg rc ts b hist).trades
      = ts.filter (fun t => t.kind = BtKind.closed) := by
  simp only [calculateResults]
  split_ifs <;> rfl

theorem netSum_cons (t : BtTrade) (ts : List BtTrade) :
    netSum (t :: ts) = tradeNet t + netSum ts := by
  simp [netSum]

/-- OPEN entries contribute no net profit, so restricting the log to its
CLOSE entries does not change the profit sum. -/
theorem netSum_filter_closed (ts : List BtTrade) :
    netSum (ts.filter (fun t => t.kind = BtKind.closed)) = netSum ts := by
  induction ts with
  | nil => rfl
  | cons t ts ih =>
    rcases ht : t.kind with _ | _
    · rw [List.filter_cons_of_neg (by simp [ht]), ih, netSum_cons]
      have hz : tradeNet t = 0 := by simp [tradeNet, ht]
      rw [hz]
      ring
    · rw [List.filter_cons_of_pos (by simp [ht]), netSum_cons, netSum_cons, ih]

/-- **C1 (amended)** — For every backtest run over candles with positive
prices and non-negative slippage, the reported `finalBalance` equals
`initialBalance` plus the sum of the (gross) profits recorded in the trade
log **minus the trading fees** charged on every OPEN's invested amount and
every CLOSE's proceeds; the profits the log records are gross of fees, so
the fee term does not vanish. -/
theorem backtest_balance_reconciliation (env : Env) (sq : ℚ → ℚ)
    (cfg : BtConfig) (rc : RunConfig) (data : List Candle)
    (hp : ∀ c ∈ data, 0 < c.trade_price) (hs : 0 ≤ cfg.slippage) :
    (runBacktest env sq cfg rc data).1.finalBalance
      = cfg.initialBalance + netSum (runBacktest env sq cfg rc data).2
        - cfg.tradingFee * feeBase (runBacktest env sq cfg rc data).2
    ∧ netSum (runBacktest env sq cfg rc data).1.trades
        = netSum (runBacktest env sq cfg rc data).2 := by
  have h0 : BalInv cfg ⟨cfg.initialBalance, Option.none, [], []⟩ := by
    unfold BalInv netSum feeBase posVal
    simp
  have hloop : BalInv cfg (btLoopState sq cfg rc data) := by
    unfold btLoopState
    apply balInv_loop sq cfg rc data hp hs _ _ _ h0
    intro i hi
    exact List.mem_range.1 (List.drop_subset _ _ hi)
  have hfin : BalInv cfg (btForceClose cfg data (btLoopState sq cfg rc data)) :=
    balInv_btForceClose cfg data _ hloop
  have hflat : (btForceClose cfg data (btLoopState sq cfg rc data)).balance
      = cfg.initialBalance
        + netSum (btForceClose cfg data (btLoopState sq cfg rc data)).trades
        - cfg.tradingFee * feeBase (btForceClose cfg data (btLoopState sq cfg rc data)).trades := by
    have := hfin
    unfold BalInv at this
    rw [btForceClose_position cfg data] at this
    simpa [posVal] using this
  constructor
  · show (calculateResults sq cfg rc _ _ _).finalBalance = _
    rw [calculateResults_finalBalance]
    exact hflat
  · show netSum (calculateResults sq cfg rc _ _ _).trades = _
    rw [calculateResults_trades, netSum_filter_closed]
    rfl

/-- Witness for C1 (amended) at the empty candle history: no trades, final
balance equal to the initial balance. -/
theorem backtest_balance_reconciliation_witness :
    (runBacktest envZero ratSqrt {} {} []).1.finalBalance
      = BtConfig.initialBalance {} + netSum (runBacktest envZero ratSqrt {} {} []).2
        - BtConfig.tradingFee {} * feeBase (runBacktest envZero ratSqrt {} {} []).2
    ∧ netSum (runBacktest envZero ratSqrt {} {} []).1.trades
        = netSum (runBacktest envZero ratSqrt {} {} []).2 :=
  backtest_balance_reconciliation envZero ratSqrt {} {} []
    (by intro c hc; simp at hc) (by norm_num)

set_option maxRecDepth 100000

/-- An EMA fold over a constant price series stays at that price. -/
theorem foldl_ema_const (per : ℕ) (p : ℚ) (k : ℕ) :
    (List.replicate k p).foldl (fun e x => (x - e) * (2 / ((per : ℚ) + 1)) + e) p = p := by
  induction k with
  | zero => rfl
  | succ n ih =>
    rw [List.replicate_succ, List.foldl_cons]
    have hstep : (p - p) * (2 / ((per : ℚ) + 1)) + p = p := by ring
    rw [hstep]
    exact ih

theorem calculateEMA_replicate_pos (per : ℕ) (p : ℚ) (n : ℕ) (hn : 0 < n) :
    calculateEMA (List.replicate n p) per = p := by
  obtain ⟨k, rfl⟩ := Nat.exists_eq_succ_of_ne_zero (Nat.pos_iff_ne_zero.1 hn)
  rw [List.replicate_succ]
  exact foldl_ema_const per p k

theorem calculateEMAAtIndex_replicate (per : ℕ) (p : ℚ) (n i : ℕ) (hn : 0 < n) :
    calculateEMAAtIndex (List.replicate n p) per i = p := by
  unfold calculateEMAAtIndex
  rw [List.take_replicate]
  exact calculateEMA_replicate_pos per p _ (by omega)

/-- MACD of a flat 200-candle window is identically zero. -/
theorem macd_flat :
    calculateMACD (List.replicate 200 flatCandle) 12 26 9 = .ok ⟨0, 0, 0⟩ := by
  simp only [calculateMACD]
  rw [if_neg (by simp)]
  have hpr : ((List.replicate 200 flatCandle).map (·.trade_price)).reverse
      = List.replicate 200 (100 : ℚ) := by
    simp [flatCandle]
  rw [hpr]
  rw [calculateEMA_replicate_pos 12 100 200 (by norm_num),
      calculateEMA_replicate_pos 26 100 200 (by norm_num)]
  have hvals : ((List.range (List.replicate 200 (100:ℚ)).length).drop (26 - 1)).map
      (fun i => calculateEMAAtIndex (List.replicate 200 (100:ℚ)) 12 i
        - calculateEMAAtIndex (List.replicate 200 (100:ℚ)) 26 i)
      = List.replicate 175 (0:ℚ) := by
    rw [List.map_congr_left (g := fun _ => (0:ℚ))]
    · simp
    · intro i _
      rw [calculateEMAAtIndex_replicate 12 100 200 i (by norm_num),
          calculateEMAAtIndex_replicate 26 100 200 i (by norm_num)]
      ring
  rw [hvals]
  rw [calculateEMA_replicate_pos 9 0 175 (by norm_num)]
  norm_num

/-- The price deltas of a flat 200-candle window are 199 zeros. -/
theorem rsiDeltas_flat : rsiDeltas (List.replicate 200 flatCandle) = List.replicate 199 (0:ℚ) := by
  simp only [rsiDeltas]
  simp [flatCandle]

theorem foldl_wilder_zero (per : ℕ) (k : ℕ) :
    (List.replicate k (0:ℚ)).foldl
      (fun (p : ℚ × ℚ) d => (wilder per p.1 (gainOf d), wilder per p.2 (lossOf d)))
      (0, 0) = (0, 0) := by
  induction k with
  | zero => rfl
  | succ n ih =>
    rw [List.replicate_succ, List.foldl_cons]
    have hstep : (wilder per ((0:ℚ), (0:ℚ)).1 (gainOf 0), wilder per ((0:ℚ), (0:ℚ)).2 (lossOf 0))
        = ((0:ℚ), (0:ℚ)) := by
      simp [wilder, gainOf, lossOf]
    rw [hstep]
    exact ih

theorem rsiAvgs_flat : rsiAvgs 14 (List.replicate 199 (0:ℚ)) = (0, 0) := by
  have hg : gainOf 0 = 0 := by simp [gainOf]
  have hl : lossOf 0 = 0 := by simp [lossOf]
  simp only [rsiAvgs, List.take_replicate, List.drop_replicate, List.map_replicate, hg, hl,
    List.sum_replicate, smul_zero, zero_div]
  exact foldl_wilder_zero 14 185

/-- RSI of a flat window is 100 (zero average loss). -/
theorem rsi_flat : calculateRSI (List.replicate 200 flatCandle) 14 = .ok 100 := by
  rw [calculateRSI, if_neg (by simp), rsiDeltas_flat, rsiAvgs_flat]
  rfl

/-- Bollinger bands of a flat window collapse onto the price. -/
theorem bb_flat : calculateBollingerBands ratSqrt (List.replicate 200 flatCandle) 20 2
    = .ok ⟨100, 100, 100, 100⟩ := by
  rfl

theorem calculateMA_flat (n per : ℕ) (hper : 0 < per) (hlen : per ≤ n) :
    calculateMA (List.replicate n flatCandle) per = .ok 100 := by
  rw [calculateMA, if_neg (by simp; omega)]
  have hmin : min per n = per := by omega
  have hne : ((per : ℚ)) ≠ 0 := by exact_mod_cast hper.ne'
  simp [flatCandle, hmin, List.sum_replicate]
  rw [mul_comm, mul_div_assoc, div_self hne, mul_one]

/-- No crossover on a flat window. -/
theorem crossover_flat : checkCrossover (List.replicate 200 flatCandle) 5 20
    = .ok CrossoverState.nocross := by
  rfl

/-- Neutral volume on a flat window. -/
theorem volume_flat : analyzeVolume (List.replicate 200 flatCandle) 20 = ⟨false, 1⟩ := by
  decide

/-- `comprehensiveAnalysis` on a flat 200-candle window under the flat-run
strategy configuration. -/
theorem comprehensive_flat :
    comprehensiveAnalysis ratSqrt (List.replicate 200 flatCandle) (acfgOf rcFlat)
      = some flatAnalysis := by
  rw [comprehensiveAnalysis]
  have hcfg : acfgOf rcFlat = (⟨14, 30, 70, 12, 26, 9, 20, 2⟩ : AnalysisConfig) := rfl
  rw [hcfg]
  dsimp only
  rw [rsi_flat, macd_flat, bb_flat, crossover_flat]
  dsimp only
  rw [volume_flat]
  decide

/-- The single loop step of the 201-candle flat run: the low buy threshold
fires, so the simulator opens a position of 99950 fee-adjusted value at the
slippage-adjusted price 100.1. -/
theorem btLoopState_flat :
    btLoopState ratSqrt {} rcFlat flatData
      = ⟨900000, some ⟨1001/10, 999500/1001⟩,
         [⟨.opened, 1001/10, 0, 999500/1001, 0, 0, 100000, 900000, .buySignal, 200⟩],
         [⟨200, 1000850000/1001, 100⟩]⟩ := by
  rw [btLoopState]
  have hidx : (List.range flatData.length).drop 200 = [200] := by
    rw [show flatData.length = 201 from by simp [flatData]]
    rfl
  rw [hidx, List.foldl_cons, List.foldl_nil, btStep]
  have hwin : ((flatData.drop (200 - 200)).take 200).reverse = List.replicate 200 flatCandle := by
    simp [flatData]
  rw [hwin, comprehensive_flat]
  decide

/-- **C1 counterexample** — On the 201-candle flat run the trade log holds
one CLOSE trade, and `finalBalance` differs from
`initialBalance + Σ(trade profits)` by the two fee charges — about 99.93,
far beyond floating-point tolerance: the log records gross profits, while
the balance also paid the fees. -/
theorem c1_counterexample :
    (runBacktest envZero ratSqrt {} rcFlat flatData).1.totalTrades = 1
    ∧ (runBacktest envZero ratSqrt {} rcFlat flatData).1.finalBalance
        ≠ (runBacktest envZero ratSqrt {} rcFlat flatData).1.initialBalance
          + netSum (runBacktest envZero ratSqrt {} rcFlat flatData).1.trades
    ∧ 99 < (runBacktest envZero ratSqrt {} rcFlat flatData).1.initialBalance
        + netSum (runBacktest envZero ratSqrt {} rcFlat flatData).1.trades
        - (runBacktest envZero ratSqrt {} rcFlat flatData).1.finalBalance := by
  rw [runBacktest, btLoopState_flat]
  decide

end CoinPilot
